import Mathlib

/-!
Verification development for the pcs-sizing-scripts repository.

The repository holds two operator scripts:
  src/aws/aws_inventory_check-v3.py
  src/azure/azure_inventory_check-v7-with-csv.py
Each authenticates to a cloud provider, counts a fixed set of resources,
scans managed Kubernetes clusters for node/pod/container counts via
kubectl pipelines, and writes two CSV reports.

This file shallowly embeds the logic of those scripts: pure Python string
helpers, the subscription-id pattern check of login_azure, the
get_inventory functions (with paginated API responses made explicit), the
get_eks_data / get_aks_data collection loops (stdin modelled as a list of
input strings, subprocess outcomes as oracle functions in an environment
record), the kubectl counting pipelines (wc -l counts newline characters,
tr rewrites spaces), and the Python csv module writer (default dialect:
comma delimiter, double-quote quoting of fields holding a delimiter,
quote or line break, CRLF line terminator) together with a CSV reader used
to state round-trip properties.
-/

namespace Pcs

/-! ## Python string helpers -/

/-- Whitespace characters stripped by the Python str.strip method
(space, tab, newline, carriage return, vertical tab, form feed). -/
def pyIsSpace (c : Char) : Bool :=
  c == ' ' || c == '\t' || c == '\n' || c == '\r' ||
  c == Char.ofNat 11 || c == Char.ofNat 12

/-- Python str.strip with no argument: drop whitespace from both ends. -/
def pyStrip (s : String) : String :=
  String.mk (((s.data.dropWhile pyIsSpace).reverse.dropWhile pyIsSpace).reverse)

/-- Python str.lower on the ASCII fragment used by the scripts. -/
def pyLower (s : String) : String :=
  String.mk (s.data.map Char.toLower)

/-! ## Subscription-id validation (login_azure)

The Azure script validates the interactively entered subscription id
against the regular expression
  [0-9a-f] groups of sizes 8-4-4-4-12 separated by hyphens
with the re.I flag (case-insensitive), anchored at both ends, before any
credential flow is started; on mismatch it prints a diagnostic and calls
sys.exit(1). -/

/-- Hex digit class of the subscription-id pattern under re.I. -/
def isHexDigitAz (c : Char) : Bool :=
  (decide ('0' ≤ c) && decide (c ≤ '9')) ||
  (decide ('a' ≤ c) && decide (c ≤ 'f')) ||
  (decide ('A' ≤ c) && decide (c ≤ 'F'))

/-- Consume exactly n hex digits, returning the remaining characters. -/
def hexRun : Nat → List Char → Option (List Char)
  | 0, l => some l
  | _ + 1, [] => none
  | n + 1, c :: rest => if isHexDigitAz c then hexRun n rest else none

/-- Consume one expected literal character. -/
def expectChar (c : Char) : List Char → Option (List Char)
  | [] => none
  | d :: rest => if d == c then some rest else none

/-- The anchored GUID pattern of login_azure: 8-4-4-4-12 hex digits
separated by hyphens, and nothing after the last group. -/
def matchesGuid (s : String) : Bool :=
  ((((((((hexRun 8 s.data).bind (expectChar '-')).bind (hexRun 4)).bind
      (expectChar '-')).bind (hexRun 4)).bind (expectChar '-')).bind
      (hexRun 4)).bind (expectChar '-')).bind (hexRun 12) == some []

/-- Provider interactions that login_azure may attempt. -/
inductive AzureStep where
  | credentialFlow : AzureStep
deriving DecidableEq

/-- login_azure: read the subscription id, strip it, validate it against
the GUID pattern; on mismatch exit fatally before the
InteractiveBrowserCredential flow, otherwise start the credential flow
and return the id. The first component records the provider interactions
attempted. -/
def login_azure (rawInput : String) : List AzureStep × Except String String :=
  if matchesGuid (pyStrip rawInput) then
    ([AzureStep.credentialFlow], .ok (pyStrip rawInput))
  else
    ([], .error "Invalid subscription ID.")

/-! ## Paginated listing APIs and get_inventory -/

/-- A paginated listing response from a cloud API: the result pages in
order. -/
structure Paged (α : Type) where
  pages : List (List α)
deriving DecidableEq

/-- Iterating an SDK pager to the end (the Azure list calls wrapped in
the Python list constructor) yields the items of every page. -/
def Paged.listAll {α : Type} (p : Paged α) : List α :=
  p.pages.flatten

/-- A single unpaginated call (the boto3 describe/list calls of the AWS
script) yields only the first page. -/
def Paged.firstPage {α : Type} (p : Paged α) : List α :=
  p.pages.headD []

/-- The true number of items of a listing, across all pages. -/
def Paged.total {α : Type} (p : Paged α) : Nat :=
  p.listAll.length

/-- Outcomes of the four AWS listing calls made by get_inventory.
Each call either raises (modelled as error) or returns its response. -/
structure AwsCloud where
  reservations : Except String (Paged String)
  vpcs : Except String (Paged String)
  buckets : Except String (List String)
  eksClusters : Except String (Paged String)

/-- get_inventory of the AWS script: issue the four listing calls in
order; any raised error aborts the whole function via sys.exit(1), so no
partial inventory is returned. Each count is the length of the single
response obtained, i.e. the first page of the paginated listings. -/
def aws_get_inventory (c : AwsCloud) : Except String (List (String × Nat)) :=
  match c.reservations, c.vpcs, c.buckets, c.eksClusters with
  | .ok r, .ok v, .ok b, .ok k =>
    .ok [("EC2 Instances", r.firstPage.length), ("VPCs", v.firstPage.length),
         ("S3 Buckets", b.length), ("EKS Clusters", k.firstPage.length)]
  | .error e, _, _, _ => .error e
  | _, .error e, _, _ => .error e
  | _, _, .error e, _ => .error e
  | _, _, _, .error e => .error e

/-- Outcomes of the four Azure listing calls made by get_inventory. -/
structure AzureCloud where
  vms : Except String (Paged String)
  networks : Except String (Paged String)
  storageAccounts : Except String (Paged String)
  managedClusters : Except String (Paged String)

/-- get_inventory of the Azure script: issue the four listing calls in
order, draining each SDK pager fully with the list constructor; any
raised error aborts the whole function via sys.exit(1). -/
def azure_get_inventory (c : AzureCloud) : Except String (List (String × Nat)) :=
  match c.vms, c.networks, c.storageAccounts, c.managedClusters with
  | .ok v, .ok n, .ok s, .ok k =>
    .ok [("VMs", v.listAll.length), ("Networks", n.listAll.length),
         ("Storage Accounts", s.listAll.length), ("AKS Clusters", k.listAll.length)]
  | .error e, _, _, _ => .error e
  | _, .error e, _, _ => .error e
  | _, _, .error e, _ => .error e
  | _, _, _, .error e => .error e

/-- Whether an Except value is a success. -/
def exceptOk {α : Type} : Except String α → Bool
  | .ok _ => true
  | .error _ => false

/-! ## Cluster state and the kubectl counting pipelines -/

/-- A pod as seen by kubectl: its printed name and the names in its
container status list. -/
structure Pod where
  name : String
  containers : List String
deriving DecidableEq

/-- Observable state of one Kubernetes cluster. -/
structure ClusterState where
  nodes : List String
  pods : List Pod
deriving DecidableEq

/-- wc -l: the number of newline characters in the input. -/
def wcL (s : String) : Nat :=
  s.data.count '\n'

/-- Concatenation of a list of strings. -/
def strConcat : List String → String
  | [] => ""
  | s :: rest => s ++ strConcat rest

/-- Interleave a single space between strings, as the kubectl jsonpath
output joins multiple results (no trailing newline). -/
def joinSpace : List String → String
  | [] => ""
  | [s] => s
  | s :: t :: rest => s ++ " " ++ joinSpace (t :: rest)

/-- Output of kubectl get nodes with no headers: one line per node. -/
def kubectlNodesNoHeaders (st : ClusterState) : String :=
  strConcat (st.nodes.map (fun n => n ++ "\n"))

/-- Output of kubectl get pods across all namespaces with no headers:
one line per pod. -/
def kubectlPodsNoHeaders (st : ClusterState) : String :=
  strConcat (st.pods.map (fun p => p.name ++ "\n"))

/-- Output of the kubectl jsonpath query over container status names:
the names of all container statuses of all pods, space separated. -/
def jsonpathContainerNames (st : ClusterState) : String :=
  joinSpace ((st.pods.map Pod.containers).flatten)

/-- tr of a space into a newline, applied to every character. -/
def trSpaceNewline (s : String) : String :=
  String.mk (s.data.map (fun c => if c == ' ' then '\n' else c))

/-- Per-cluster record assembled by both collection loops. -/
structure ClusterSummary where
  name : String
  nodes : Nat
  pods : Nat
  containers : Nat
deriving DecidableEq

/-- The three counting pipelines run for one cluster: nodes and pods by
piping the headerless listings through wc -l, containers by piping the
jsonpath output through tr and wc -l. -/
def collectSummary (name : String) (st : ClusterState) : ClusterSummary :=
  { name := name
    nodes := wcL (kubectlNodesNoHeaders st)
    pods := wcL (kubectlPodsNoHeaders st)
    containers := wcL (trSpaceNewline (jsonpathContainerNames st)) }

/-! ## The AWS collection loop (get_eks_data) -/

/-- Environment of the AWS script: the paginated list_clusters response,
per-cluster success of aws eks update-kubeconfig, and per-cluster
observable state. -/
structure AwsEnv where
  clustersPages : List (List String)
  credOk : String → Bool
  clusterState : String → ClusterState

/-- Loop body of get_eks_data over the enumerated cluster names: merge
credentials for each cluster in turn (a failure raises, is caught by the
surrounding handler and exits the whole function), then run the three
counting pipelines and append the summary. -/
def getEksDataLoop (env : AwsEnv) : List String → Except String (List ClusterSummary)
  | [] => .ok []
  | c :: rest =>
    if env.credOk c then
      match getEksDataLoop env rest with
      | .ok l => .ok (collectSummary c (env.clusterState c) :: l)
      | .error e => .error e
    else
      .error "Error getting EKS data"

/-- get_eks_data: scan every cluster of the list_clusters response (the
single call yields its first page). -/
def getEksData (env : AwsEnv) : Except String (List ClusterSummary) :=
  getEksDataLoop env (env.clustersPages.headD [])

/-- Local kubeconfig environment mutated by each collection step (the
merged kubeconfig file pointed to by the KUBECONFIG variable). -/
structure KubeEnv where
  kubeconfigEntries : List String
deriving DecidableEq

/-- aws eks update-kubeconfig followed by the kubectl config merge:
the access context of the target cluster is added to the local
kubeconfig. -/
def resolveAccess (e : KubeEnv) (cluster : String) : KubeEnv :=
  ⟨e.kubeconfigEntries ++ [cluster]⟩

/-- One collection step for one cluster: resolve the access context
(mutating the local kubeconfig environment), then run the three counting
pipelines against the cluster state. -/
def collectOne (e : KubeEnv) (cluster : String) (st : ClusterState) :
    KubeEnv × ClusterSummary :=
  (resolveAccess e cluster, collectSummary cluster st)

/-! ## The Azure interactive collection loop (get_aks_data) -/

/-- Environment of the Azure script: the enumerated managed cluster
names, success of az aks get-credentials per resource group and cluster,
and per-cluster observable state. -/
structure AzureEnv where
  clusters : List String
  credOk : String → String → Bool
  state : String → ClusterState

/-- Interactive loop of get_aks_data over the remaining stdin lines and
the summaries accumulated so far. Each candidate name is stripped; the
loop breaks when the lowered name equals the sentinel; an accepted name
must belong to the enumerated clusters; a get-credentials failure prints
a diagnostic and continues the loop without appending a summary;
exhausting stdin raises EOFError, which the surrounding handler turns
into a fatal exit. -/
def getAksDataLoop (env : AzureEnv) :
    List String → List ClusterSummary → Except String (List ClusterSummary)
  | [], _ => .error "EOFError"
  | i :: rest, acc =>
    if pyLower (pyStrip i) = "done" then
      .ok acc
    else if pyStrip i ∈ env.clusters then
      match rest with
      | [] => .error "EOFError"
      | rg :: rest2 =>
        if env.credOk (pyStrip rg) (pyStrip i) then
          getAksDataLoop env rest2
            (acc ++ [collectSummary (pyStrip i) (env.state (pyStrip i))])
        else
          getAksDataLoop env rest2 acc
    else
      getAksDataLoop env rest acc

/-- get_aks_data: run the interactive loop from an empty accumulator. -/
def getAksData (env : AzureEnv) (inputs : List String) :
    Except String (List ClusterSummary) :=
  getAksDataLoop env inputs []

/-! ## CSV writing (the Python csv module, default dialect) -/

/-- Characters that end an unquoted field in the default dialect:
the delimiter and the line-terminator characters. -/
def csvStopChar (c : Char) : Bool :=
  c == ',' || c == '\r' || c == '\n'

/-- QUOTE_MINIMAL: a field is quoted when it holds the delimiter, the
quote character, or a line-break character. -/
def csvNeedsQuote (l : List Char) : Bool :=
  l.any (fun c => csvStopChar c || c == '"')

/-- Inside a quoted field every quote character is doubled. -/
def csvEscapeChars : List Char → List Char
  | [] => []
  | c :: rest =>
    if c = '"' then '"' :: '"' :: csvEscapeChars rest
    else c :: csvEscapeChars rest

/-- Serialize one field: quote and escape it when needed. -/
def csvFieldChars (l : List Char) : List Char :=
  if csvNeedsQuote l then '"' :: (csvEscapeChars l ++ ['"']) else l

/-- Serialize one record: fields joined by the delimiter, terminated by
the CRLF line terminator of the default dialect. -/
def csvRowChars : List (List Char) → List Char
  | [] => ['\r', '\n']
  | [f] => csvFieldChars f ++ ['\r', '\n']
  | f :: g :: rest => csvFieldChars f ++ ',' :: csvRowChars (g :: rest)

/-- Concatenation of character lists. -/
def listConcat {α : Type} : List (List α) → List α
  | [] => []
  | l :: rest => l ++ listConcat rest

/-- The records written to the inventory CSV: the DictWriter header row
with the declared field names, then one row per resource category in
insertion order. -/
def inventoryRecords (inv : List (String × Nat)) : List (List (List Char)) :=
  ["Resource Type".data, "Count".data] ::
    inv.map (fun p => [p.1.data, (Nat.repr p.2).data])

/-- The inventory CSV file contents. -/
def writeInventoryCsv (inv : List (String × Nat)) : String :=
  String.mk (listConcat ((inventoryRecords inv).map csvRowChars))

/-- The records written to the cluster-data CSV: the DictWriter header
row, then one row per scanned cluster in collection order. -/
def clusterRecords (l : List ClusterSummary) : List (List (List Char)) :=
  ["Cluster Name".data, "Nodes".data, "Pods".data, "Containers".data] ::
    l.map (fun s =>
      [s.name.data, (Nat.repr s.nodes).data, (Nat.repr s.pods).data,
       (Nat.repr s.containers).data])

/-- The cluster-data CSV file contents. -/
def writeClusterCsv (l : List ClusterSummary) : String :=
  String.mk (listConcat ((clusterRecords l).map csvRowChars))

/-- Files written by one run. -/
structure RunOutput where
  files : List (String × String)

/-- The two files written at the end of the AWS script. -/
def awsWriteReports (inv : List (String × Nat)) (eks : List ClusterSummary) :
    RunOutput :=
  ⟨[("aws_inventory.csv", writeInventoryCsv inv),
    ("eks_data.csv", writeClusterCsv eks)]⟩

/-- The two files written at the end of the Azure script. -/
def azureWriteReports (inv : List (String × Nat)) (aks : List ClusterSummary) :
    RunOutput :=
  ⟨[("azure_inventory.csv", writeInventoryCsv inv),
    ("aks_data.csv", writeClusterCsv aks)]⟩

/-! ## CSV reading (used to state round-trip properties) -/

/-- Read the body of a quoted field after its opening quote: a doubled
quote stands for one quote character, a single quote closes the field. -/
def csvReadQuoted : List Char → List Char × List Char
  | [] => ([], [])
  | [c] => if c = '"' then ([], []) else ([c], [])
  | c :: d :: rest =>
    if c = '"' then
      if d = '"' then
        ('"' :: (csvReadQuoted rest).1, (csvReadQuoted rest).2)
      else
        ([], d :: rest)
    else
      (c :: (csvReadQuoted (d :: rest)).1, (csvReadQuoted (d :: rest)).2)

/-- Read an unquoted field: everything up to the next delimiter or line
break. -/
def csvReadUnquoted : List Char → List Char × List Char
  | [] => ([], [])
  | c :: rest =>
    if csvStopChar c then ([], c :: rest)
    else (c :: (csvReadUnquoted rest).1, (csvReadUnquoted rest).2)

/-- Read one field, quoted or unquoted. -/
def csvReadField (l : List Char) : List Char × List Char :=
  match l with
  | '"' :: rest => csvReadQuoted rest
  | _ => csvReadUnquoted l

/-- Read the fields of one record, consuming its CRLF terminator. -/
def csvReadRecord : Nat → List Char → List String × List Char
  | 0, l => ([], l)
  | fuel + 1, l =>
    match (csvReadField l).2 with
    | ',' :: rest =>
      (String.mk (csvReadField l).1 :: (csvReadRecord fuel rest).1,
       (csvReadRecord fuel rest).2)
    | '\r' :: '\n' :: rest => ([String.mk (csvReadField l).1], rest)
    | rest => ([String.mk (csvReadField l).1], rest)

/-- Read all records of a CSV document. -/
def csvReadAll : Nat → List Char → List (List String)
  | 0, _ => []
  | _ + 1, [] => []
  | fuel + 1, c :: l =>
    (csvReadRecord (fuel + 1) (c :: l)).1 ::
      csvReadAll fuel (csvReadRecord (fuel + 1) (c :: l)).2

/-- Parse a CSV document back into its records. -/
def csvParseCsv (s : String) : List (List String) :=
  csvReadAll (s.data.length + 1) s.data

/-- Fuel sufficient to read a given record list: one unit per field plus
one per record. -/
def csvFuel : List (List (List Char)) → Nat
  | [] => 0
  | r :: rs => r.length + 1 + csvFuel rs

/-! ## Theorems -/

/-! ### CSV round-trip lemmas -/

theorem csvReadQuoted_escape (f : List Char) :
    ∀ r : List Char, (∀ t, r ≠ '"' :: t) →
    csvReadQuoted (csvEscapeChars f ++ '"' :: r) = (f, r) := by
  induction f with
  | nil =>
    intro r hr
    simp only [csvEscapeChars, List.nil_append]
    cases r with
    | nil => rfl
    | cons d t =>
      have hd : ¬(d = '"') := fun h => hr t (by rw [h])
      simp [csvReadQuoted, hd]
  | cons c f ih =>
    intro r hr
    by_cases hc : c = '"'
    · subst hc
      have he : csvEscapeChars ('"' :: f) = '"' :: '"' :: csvEscapeChars f := by
        simp [csvEscapeChars]
      rw [he, List.cons_append, List.cons_append]
      simp [csvReadQuoted, ih r hr]
    · have he : csvEscapeChars (c :: f) = c :: csvEscapeChars f := by
        simp [csvEscapeChars, hc]
      rw [he, List.cons_append]
      cases hE : csvEscapeChars f ++ '"' :: r with
      | nil => simp at hE
      | cons d t =>
        simp only [csvReadQuoted, if_neg hc]
        rw [← hE, ih r hr]

theorem csvReadUnquoted_plain (f : List Char) :
    ∀ r : List Char, (∀ c ∈ f, csvStopChar c = false) →
    (∀ c t, r = c :: t → csvStopChar c = true) →
    csvReadUnquoted (f ++ r) = (f, r) := by
  induction f with
  | nil =>
    intro r _ hr
    cases r with
    | nil => rfl
    | cons c t => simp [csvReadUnquoted, hr c t rfl]
  | cons c f ih =>
    intro r hf hr
    have hc := hf c (List.mem_cons_self c f)
    rw [List.cons_append]
    simp [csvReadUnquoted, hc, ih r (fun d hd => hf d (List.mem_cons_of_mem c hd)) hr]

theorem notNeedsQuote (f : List Char) (h : csvNeedsQuote f = false) :
    ∀ c ∈ f, csvStopChar c = false ∧ ¬(c = '"') := by
  intro c hc
  unfold csvNeedsQuote at h
  rw [List.any_eq_false] at h
  have hcc := h c hc
  simp only [Bool.or_eq_true, beq_iff_eq, not_or] at hcc
  exact ⟨by simpa using hcc.1, hcc.2⟩

theorem csvReadField_field (f r : List Char)
    (hr : ∀ c t, r = c :: t → csvStopChar c = true) :
    csvReadField (csvFieldChars f ++ r) = (f, r) := by
  by_cases hq : csvNeedsQuote f = true
  · have hrq : ∀ t, r ≠ '"' :: t := by
      intro t ht
      have := hr '"' t ht
      simp [csvStopChar] at this
    rw [csvFieldChars, if_pos hq]
    have hshape : ('"' :: (csvEscapeChars f ++ ['"'])) ++ r =
        '"' :: (csvEscapeChars f ++ '"' :: r) := by simp
    rw [hshape]
    exact csvReadQuoted_escape f r hrq
  · have hq2 : csvNeedsQuote f = false := by simpa using hq
    have hf := notNeedsQuote f hq2
    rw [csvFieldChars, if_neg (by simp [hq2])]
    cases f with
    | nil =>
      rw [List.nil_append]
      cases r with
      | nil => rfl
      | cons c t =>
        have hc := hr c t rfl
        have hcq : ¬(c = '"') := by
          intro hcq
          rw [hcq] at hc
          simp [csvStopChar] at hc
        unfold csvReadField
        split
        · rename_i rest heq
          exact absurd (List.cons.injEq _ _ _ _ ▸ congrArg id heq) (by
            intro hh
            exact hcq (List.cons.injEq c t '"' rest ▸ heq).1)
        · simp [csvReadUnquoted, hc]
    | cons c f2 =>
      have hcq : ¬(c = '"') := (hf c (List.mem_cons_self c f2)).2
      rw [List.cons_append]
      unfold csvReadField
      split
      · rename_i rest heq
        exact absurd (List.cons.injEq c (f2 ++ r) '"' rest ▸ heq).1 hcq
      · rw [← List.cons_append]
        exact csvReadUnquoted_plain (c :: f2) r (fun d hd => (hf d hd).1) hr

theorem csvReadRecord_row (fields : List (List Char)) :
    ∀ (fuel : Nat) (rest : List Char), fields ≠ [] → fields.length ≤ fuel →
    csvReadRecord fuel (csvRowChars fields ++ rest) = (fields.map String.mk, rest) := by
  induction fields with
  | nil => intro fuel rest h _; exact absurd rfl h
  | cons f tail ih =>
    intro fuel rest _ hfuel
    cases tail with
    | nil =>
      obtain ⟨n, rfl⟩ : ∃ n, fuel = n + 1 := ⟨fuel - 1, by simp at hfuel; omega⟩
      have hrow : csvRowChars [f] ++ rest = csvFieldChars f ++ ('\r' :: '\n' :: rest) := by
        simp [csvRowChars]
      rw [hrow]
      have hfld := csvReadField_field f ('\r' :: '\n' :: rest)
        (fun c t ht => by
          injection ht with h1 _
          rw [← h1]
          rfl)
      simp only [csvReadRecord]
      rw [hfld]
      rfl
    | cons g tail2 =>
      obtain ⟨n, rfl⟩ : ∃ n, fuel = n + 1 := ⟨fuel - 1, by simp at hfuel; omega⟩
      have hrow : csvRowChars (f :: g :: tail2) ++ rest =
          csvFieldChars f ++ (',' :: (csvRowChars (g :: tail2) ++ rest)) := by
        simp [csvRowChars]
      rw [hrow]
      have hfld := csvReadField_field f (',' :: (csvRowChars (g :: tail2) ++ rest))
        (fun c t ht => by
          injection ht with h1 _
          rw [← h1]
          rfl)
      simp only [csvReadRecord]
      rw [hfld]
      show (String.mk f :: (csvReadRecord n (csvRowChars (g :: tail2) ++ rest)).1,
            (csvReadRecord n (csvRowChars (g :: tail2) ++ rest)).2) =
          ((f :: g :: tail2).map String.mk, rest)
      rw [ih n rest (by simp) (by simp at hfuel ⊢; omega)]
      rfl

theorem csvRowChars_ne_nil (fields : List (List Char)) : csvRowChars fields ≠ [] := by
  match fields with
  | [] => simp [csvRowChars]
  | [f] => simp [csvRowChars]
  | f :: g :: tail => simp [csvRowChars]

theorem csvRowChars_length (fields : List (List Char)) :
    fields.length + 1 ≤ (csvRowChars fields).length := by
  induction fields with
  | nil => simp [csvRowChars]
  | cons f tail ih =>
    cases tail with
    | nil =>
      simp [csvRowChars]
    | cons g tail2 =>
      simp only [csvRowChars, List.length_append, List.length_cons] at ih ⊢
      omega

theorem csvFuel_le (records : List (List (List Char))) :
    csvFuel records ≤ (listConcat (records.map csvRowChars)).length := by
  induction records with
  | nil => simp [csvFuel, listConcat]
  | cons r rs ih =>
    have h1 := csvRowChars_length r
    simp only [csvFuel, List.map, listConcat, List.length_append]
    omega

theorem csvReadAll_rows (records : List (List (List Char))) :
    ∀ fuel : Nat, (∀ r ∈ records, r ≠ []) → csvFuel records ≤ fuel →
    csvReadAll fuel (listConcat (records.map csvRowChars)) =
      records.map (fun r => r.map String.mk) := by
  induction records with
  | nil =>
    intro fuel _ _
    cases fuel <;> rfl
  | cons r rs ih =>
    intro fuel hne hfuel
    obtain ⟨n, rfl⟩ : ∃ n, fuel = n + 1 := ⟨fuel - 1, by simp [csvFuel] at hfuel; omega⟩
    have hconc : listConcat ((r :: rs).map csvRowChars) =
        csvRowChars r ++ listConcat (rs.map csvRowChars) := rfl
    rw [hconc]
    cases hc : csvRowChars r ++ listConcat (rs.map csvRowChars) with
    | nil => exact absurd (List.append_eq_nil.mp hc).1 (csvRowChars_ne_nil r)
    | cons c l =>
      simp only [csvReadAll]
      rw [← hc]
      rw [csvReadRecord_row r (n + 1) (listConcat (rs.map csvRowChars))
        (hne r (List.mem_cons_self r rs)) (by simp [csvFuel] at hfuel; omega)]
      rw [ih n (fun x hx => hne x (List.mem_cons_of_mem r hx))
        (by simp [csvFuel] at hfuel; omega)]
      rfl

theorem strOfData (s : String) : String.mk s.data = s := by
  cases s
  rfl

theorem csvParse_writeInventory (inv : List (String × Nat)) :
    csvParseCsv (writeInventoryCsv inv) =
      ["Resource Type", "Count"] :: inv.map (fun p => [p.1, Nat.repr p.2]) := by
  have hne : ∀ r ∈ inventoryRecords inv, r ≠ [] := by
    intro r hr
    simp only [inventoryRecords, List.mem_cons] at hr
    rcases hr with rfl | hr
    · simp
    · obtain ⟨p, _, rfl⟩ := List.mem_map.mp hr
      simp
  have hfuel : csvFuel (inventoryRecords inv) ≤
      (listConcat ((inventoryRecords inv).map csvRowChars)).length + 1 :=
    le_trans (csvFuel_le _) (Nat.le_succ _)
  have h := csvReadAll_rows (inventoryRecords inv) _ hne hfuel
  unfold csvParseCsv writeInventoryCsv
  rw [show (String.mk (listConcat ((inventoryRecords inv).map csvRowChars))).data
      = listConcat ((inventoryRecords inv).map csvRowChars) from rfl]
  rw [h]
  simp [inventoryRecords, strOfData, List.map_map, Function.comp]

theorem csvParse_writeCluster (l : List ClusterSummary) :
    csvParseCsv (writeClusterCsv l) =
      ["Cluster Name", "Nodes", "Pods", "Containers"] ::
        l.map (fun s =>
          [s.name, Nat.repr s.nodes, Nat.repr s.pods, Nat.repr s.containers]) := by
  have hne : ∀ r ∈ clusterRecords l, r ≠ [] := by
    intro r hr
    simp only [clusterRecords, List.mem_cons] at hr
    rcases hr with rfl | hr
    · simp
    · obtain ⟨p, _, rfl⟩ := List.mem_map.mp hr
      simp
  have hfuel : csvFuel (clusterRecords l) ≤
      (listConcat ((clusterRecords l).map csvRowChars)).length + 1 :=
    le_trans (csvFuel_le _) (Nat.le_succ _)
  have h := csvReadAll_rows (clusterRecords l) _ hne hfuel
  unfold csvParseCsv writeClusterCsv
  rw [show (String.mk (listConcat ((clusterRecords l).map csvRowChars))).data
      = listConcat ((clusterRecords l).map csvRowChars) from rfl]
  rw [h]
  simp [clusterRecords, strOfData, List.map_map, Function.comp]

/-! ### Claim theorems -/

/-- Claim C1, counterexample: in the Azure collection loop, a cluster
whose az aks get-credentials call fails is skipped entirely. Running the
loop over enumerated clusters bad and good, where credentials fail for
bad and succeed for good, returns exactly one summary, the one for good;
no ClusterSummary with any marker is produced for bad, contradicting the
claim that a failed cluster yields a summary with an unknown marker. -/
theorem c1_counterexample :
    getAksData ⟨["bad", "good"], fun _ c => c == "good", fun _ => ⟨[], []⟩⟩
        ["bad", "g", "good", "g", "done"] =
      .ok [⟨"good", 0, 0, 0⟩] ∧
    ∀ s ∈ [ClusterSummary.mk "good" 0 0 0], s.name ≠ "bad" :=
  ⟨rfl, by decide⟩

/-- Claim C1, amended: in the Azure collector, a cluster whose access
resolution fails contributes no ClusterSummary at all (no unknown or
error marker); the loop merely continues with the remaining input, so
summaries are still returned for the other accepted clusters. In the AWS
collector, an access-resolution failure aborts the entire scan fatally,
so no summaries at all are returned for the batch. -/
theorem c1_amended :
    (∀ (env : AzureEnv) (i g : String) (rest : List String)
        (acc : List ClusterSummary),
        pyLower (pyStrip i) ≠ "done" →
        pyStrip i ∈ env.clusters →
        env.credOk (pyStrip g) (pyStrip i) = false →
        getAksDataLoop env (i :: g :: rest) acc = getAksDataLoop env rest acc) ∧
    (∀ (env : AwsEnv) (c : String) (rest : List String),
        env.credOk c = false →
        getEksDataLoop env (c :: rest) = .error "Error getting EKS data") := by
  constructor
  · intro env i g rest acc hdone hmem hcred
    simp [getAksDataLoop, hdone, hmem, hcred]
  · intro env c rest hcred
    simp [getEksDataLoop, hcred]

/-- Claim C1, witness for the amended theorem at concrete inputs. -/
theorem c1_witness :
    getAksDataLoop ⟨["bad"], fun _ _ => false, fun _ => ⟨[], []⟩⟩ ["bad", "g"] [] =
      getAksDataLoop ⟨["bad"], fun _ _ => false, fun _ => ⟨[], []⟩⟩ [] [] ∧
    getEksDataLoop ⟨[["c"]], fun _ => false, fun _ => ⟨[], []⟩⟩ ["c"] =
      .error "Error getting EKS data" :=
  ⟨c1_amended.1 _ "bad" "g" [] [] (by decide) (by decide) rfl,
   c1_amended.2 _ "c" [] rfl⟩

/-- Claim C2, counterexample: the AWS get_inventory counts only the
first page of a paginated listing. With a page size of one and two EC2
reservations spread over two pages (page-size + 1 items), the reported
count is 1 (the page size), while the true total across pages is 2,
contradicting the claim that page-size + 1 items yield page-size + 1. -/
theorem c2_counterexample :
    aws_get_inventory ⟨.ok ⟨[["i1"], ["i2"]]⟩, .ok ⟨[]⟩, .ok [], .ok ⟨[]⟩⟩ =
      .ok [("EC2 Instances", 1), ("VPCs", 0), ("S3 Buckets", 0),
           ("EKS Clusters", 0)] ∧
    Paged.total (⟨[["i1"], ["i2"]]⟩ : Paged String) = 2 :=
  ⟨rfl, rfl⟩

/-- Claim C2, amended: the Azure get_inventory drains every page of each
listing, so its counts equal the true totals across pages; the AWS
get_inventory instead returns the length of the single first-page
response for each category, so an input of page-size + 1 items split
over two pages yields the page size, not page-size + 1. -/
theorem c2_amended :
    (∀ v n s k : Paged String,
        azure_get_inventory ⟨.ok v, .ok n, .ok s, .ok k⟩ =
          .ok [("VMs", v.total), ("Networks", n.total),
               ("Storage Accounts", s.total), ("AKS Clusters", k.total)]) ∧
    (∀ (r v k : Paged String) (b : List String),
        aws_get_inventory ⟨.ok r, .ok v, .ok b, .ok k⟩ =
          .ok [("EC2 Instances", r.firstPage.length), ("VPCs", v.firstPage.length),
               ("S3 Buckets", b.length), ("EKS Clusters", k.firstPage.length)]) ∧
    (∀ (page : List String) (x : String),
        Paged.firstPage ⟨[page, [x]]⟩ = page ∧
        Paged.total (⟨[page, [x]]⟩ : Paged String) = page.length + 1) := by
  refine ⟨fun v n s k => rfl, fun r v b k => rfl, fun page x => ⟨rfl, ?_⟩⟩
  simp [Paged.total, Paged.listAll]

/-- Claim C3: both get_inventory functions are all-or-nothing. The
result is a success exactly when all four listing calls succeed, and a
successful result always carries every resource category in the declared
order, so no partial inventory is ever returned. -/
theorem c3_all_or_nothing :
    (∀ c : AwsCloud,
        (exceptOk (aws_get_inventory c) = true ↔
          exceptOk c.reservations = true ∧ exceptOk c.vpcs = true ∧
          exceptOk c.buckets = true ∧ exceptOk c.eksClusters = true) ∧
        ∀ inv, aws_get_inventory c = .ok inv →
          inv.map Prod.fst = ["EC2 Instances", "VPCs", "S3 Buckets", "EKS Clusters"]) ∧
    (∀ c : AzureCloud,
        (exceptOk (azure_get_inventory c) = true ↔
          exceptOk c.vms = true ∧ exceptOk c.networks = true ∧
          exceptOk c.storageAccounts = true ∧ exceptOk c.managedClusters = true) ∧
        ∀ inv, azure_get_inventory c = .ok inv →
          inv.map Prod.fst = ["VMs", "Networks", "Storage Accounts", "AKS Clusters"]) := by
  constructor
  · rintro ⟨r, v, b, k⟩
    cases r <;> cases v <;> cases b <;> cases k <;>
      simp [aws_get_inventory, exceptOk]
  · rintro ⟨v, n, s, k⟩
    cases v <;> cases n <;> cases s <;> cases k <;>
      simp [azure_get_inventory, exceptOk]

/-- Claim C3, witness at a concrete all-success input. -/
theorem c3_witness :
    ([("EC2 Instances", (0 : Nat)), ("VPCs", 0), ("S3 Buckets", 0),
      ("EKS Clusters", 0)].map Prod.fst) =
      ["EC2 Instances", "VPCs", "S3 Buckets", "EKS Clusters"] :=
  (c3_all_or_nothing.1 ⟨.ok ⟨[]⟩, .ok ⟨[]⟩, .ok [], .ok ⟨[]⟩⟩).2 _ rfl

/-- Claim C4: an entered subscription id whose stripped form fails the
GUID pattern makes login_azure exit fatally with no provider interaction
attempted: the recorded interaction trace is empty and the result is the
fatal error, so the failure happens before any network call. -/
theorem c4_invalid_id_fails_before_network (raw : String)
    (h : matchesGuid (pyStrip raw) = false) :
    login_azure raw = ([], Except.error "Invalid subscription ID.") := by
  simp [login_azure, h]

/-- Claim C4, witness at a concrete malformed identifier. -/
theorem c4_witness :
    matchesGuid (pyStrip "not-a-guid") = false ∧
    login_azure "not-a-guid" = ([], Except.error "Invalid subscription ID.") :=
  ⟨by decide, c4_invalid_id_fails_before_network "not-a-guid" (by decide)⟩

/-- Claim C5: a cluster with zero nodes or zero pods yields zero for the
empty dimensions, not an error: zero nodes give node count zero; zero
pods give pod count zero and container count zero, whatever the nodes
are; a cluster with zero nodes and zero pods yields the all-zero
summary; and the AWS scan loop reports any such cluster successfully. -/
theorem c5_zero_cluster (c : String) (st : ClusterState) :
    (st.nodes = [] → (collectSummary c st).nodes = 0) ∧
    (st.pods = [] →
      (collectSummary c st).pods = 0 ∧ (collectSummary c st).containers = 0) ∧
    (st.nodes = [] → st.pods = [] → collectSummary c st = ⟨c, 0, 0, 0⟩) ∧
    (∀ env : AwsEnv, env.credOk c = true → env.clusterState c = st →
      env.clustersPages = [[c]] → getEksData env = .ok [collectSummary c st]) := by
  obtain ⟨nodes, pods⟩ := st
  refine ⟨?_, ?_, ?_, ?_⟩
  · intro hn
    simp only at hn
    subst hn
    rfl
  · intro hp
    simp only at hp
    subst hp
    exact ⟨rfl, rfl⟩
  · intro hn hp
    simp only at hn hp
    subst hn; subst hp
    rfl
  · intro env hc hst hpg
    simp [getEksData, getEksDataLoop, hpg, hc, hst]

/-- Claim C5, witness: a cluster with three nodes and zero pods yields
pod and container counts zero with node count three and is scanned
without error, and a cluster with zero nodes and zero pods yields the
all-zero summary. -/
theorem c5_witness :
    (collectSummary "c1" ⟨["n1", "n2", "n3"], []⟩).pods = 0 ∧
    (collectSummary "c1" ⟨["n1", "n2", "n3"], []⟩).containers = 0 ∧
    (collectSummary "c1" ⟨["n1", "n2", "n3"], []⟩).nodes = 3 ∧
    collectSummary "c2" ⟨[], []⟩ = ⟨"c2", 0, 0, 0⟩ ∧
    getEksData ⟨[["c1"]], fun _ => true, fun _ => ⟨["n1", "n2", "n3"], []⟩⟩ =
      .ok [collectSummary "c1" ⟨["n1", "n2", "n3"], []⟩] :=
  ⟨((c5_zero_cluster "c1" ⟨["n1", "n2", "n3"], []⟩).2.1 rfl).1,
   ((c5_zero_cluster "c1" ⟨["n1", "n2", "n3"], []⟩).2.1 rfl).2,
   by decide,
   (c5_zero_cluster "c2" ⟨[], []⟩).2.2.1 rfl rfl,
   (c5_zero_cluster "c1" ⟨["n1", "n2", "n3"], []⟩).2.2.2 _ rfl rfl rfl⟩

/-- Claim C6: a completed run writes exactly two CSV files, the
provider inventory file and the cluster-data file; parsing the inventory
file back yields the header record Resource Type, Count followed by one
record per resource category in order, and parsing the cluster-data file
back yields the header record Cluster Name, Nodes, Pods, Containers
followed by one record per scanned cluster, with field order matching
the declared schema. -/
theorem c6_two_csv_files (inv : List (String × Nat)) (eks aks : List ClusterSummary) :
    (awsWriteReports inv eks).files.map Prod.fst =
      ["aws_inventory.csv", "eks_data.csv"] ∧
    (azureWriteReports inv aks).files.map Prod.fst =
      ["azure_inventory.csv", "aks_data.csv"] ∧
    csvParseCsv (writeInventoryCsv inv) =
      ["Resource Type", "Count"] :: inv.map (fun p => [p.1, Nat.repr p.2]) ∧
    csvParseCsv (writeClusterCsv eks) =
      ["Cluster Name", "Nodes", "Pods", "Containers"] ::
        eks.map (fun s =>
          [s.name, Nat.repr s.nodes, Nat.repr s.pods, Nat.repr s.containers]) :=
  ⟨rfl, rfl, csvParse_writeInventory inv, csvParse_writeCluster eks⟩

/-- Claim C7: a ClusterSummary whose name holds the delimiter or a line
break is escaped by the report writer so that parsing the produced CSV
back yields the original name unchanged (the name field of the first
data record of the parsed document equals the original name). -/
theorem c7_roundtrip_name (cs : ClusterSummary) (rest : List ClusterSummary)
    (h : ',' ∈ cs.name.data ∨ '\n' ∈ cs.name.data) :
    ((csvParseCsv (writeClusterCsv (cs :: rest))).getD 1 []).getD 0 "" = cs.name := by
  rw [csvParse_writeCluster]
  simp

/-- Claim C7, witness at a name holding the delimiter. -/
theorem c7_witness :
    (',' ∈ ("us,east" : String).data ∨ '\n' ∈ ("us,east" : String).data) ∧
    ((csvParseCsv (writeClusterCsv [⟨"us,east", 1, 2, 3⟩])).getD 1 []).getD 0 "" =
      "us,east" :=
  ⟨Or.inl (by decide), c7_roundtrip_name ⟨"us,east", 1, 2, 3⟩ [] (Or.inl (by decide))⟩

theorem aksLoop_names (n : Nat) : ∀ (env : AzureEnv) (inputs : List String)
    (acc res : List ClusterSummary), inputs.length ≤ n →
    (∀ s ∈ acc, s.name ∈ env.clusters) →
    getAksDataLoop env inputs acc = .ok res →
    ∀ s ∈ res, s.name ∈ env.clusters := by
  induction n with
  | zero =>
    intro env inputs acc res hlen hacc hrun
    cases inputs with
    | nil => simp [getAksDataLoop] at hrun
    | cons i rest => simp at hlen
  | succ n ih =>
    intro env inputs acc res hlen hacc hrun
    cases inputs with
    | nil => simp [getAksDataLoop] at hrun
    | cons i rest =>
      by_cases hdone : pyLower (pyStrip i) = "done"
      · unfold getAksDataLoop at hrun
        rw [if_pos hdone] at hrun
        injection hrun with h
        subst h
        exact hacc
      · by_cases hmem : pyStrip i ∈ env.clusters
        · cases rest with
          | nil =>
            unfold getAksDataLoop at hrun
            rw [if_neg hdone, if_pos hmem] at hrun
            simp at hrun
          | cons rg rest2 =>
            unfold getAksDataLoop at hrun
            rw [if_neg hdone, if_pos hmem] at hrun
            by_cases hcred : env.credOk (pyStrip rg) (pyStrip i) = true
            · simp only [hcred, if_true] at hrun
              refine ih env rest2 _ res (by simp at hlen ⊢; omega) ?_ hrun
              intro s hs
              rcases List.mem_append.mp hs with hs | hs
              · exact hacc s hs
              · simp only [List.mem_singleton] at hs
                rw [hs]
                exact hmem
            · have hcred2 : env.credOk (pyStrip rg) (pyStrip i) = false := by
                simpa using hcred
              simp [hcred2] at hrun
              exact ih env rest2 acc res (by simp at hlen ⊢; omega) hacc hrun
        · unfold getAksDataLoop at hrun
          rw [if_neg hdone, if_neg hmem] at hrun
          exact ih env rest acc res (by simp at hlen ⊢; omega) hacc hrun

theorem aksLoop_done (n : Nat) : ∀ (env : AzureEnv) (inputs : List String)
    (acc res : List ClusterSummary), inputs.length ≤ n →
    getAksDataLoop env inputs acc = .ok res →
    ∃ i ∈ inputs, pyLower (pyStrip i) = "done" := by
  induction n with
  | zero =>
    intro env inputs acc res hlen hrun
    cases inputs with
    | nil => simp [getAksDataLoop] at hrun
    | cons i rest => simp at hlen
  | succ n ih =>
    intro env inputs acc res hlen hrun
    cases inputs with
    | nil => simp [getAksDataLoop] at hrun
    | cons i rest =>
      by_cases hdone : pyLower (pyStrip i) = "done"
      · exact ⟨i, List.mem_cons_self i rest, hdone⟩
      · by_cases hmem : pyStrip i ∈ env.clusters
        · cases rest with
          | nil =>
            unfold getAksDataLoop at hrun
            rw [if_neg hdone, if_pos hmem] at hrun
            simp at hrun
          | cons rg rest2 =>
            unfold getAksDataLoop at hrun
            rw [if_neg hdone, if_pos hmem] at hrun
            by_cases hcred : env.credOk (pyStrip rg) (pyStrip i) = true
            · simp only [hcred, if_true] at hrun
              obtain ⟨j, hj, hjd⟩ := ih env rest2 _ res (by simp at hlen ⊢; omega) hrun
              exact ⟨j, List.mem_cons_of_mem i (List.mem_cons_of_mem rg hj), hjd⟩
            · have hcred2 : env.credOk (pyStrip rg) (pyStrip i) = false := by
                simpa using hcred
              simp [hcred2] at hrun
              obtain ⟨j, hj, hjd⟩ := ih env rest2 acc res (by simp at hlen ⊢; omega) hrun
              exact ⟨j, List.mem_cons_of_mem i (List.mem_cons_of_mem rg hj), hjd⟩
        · unfold getAksDataLoop at hrun
          rw [if_neg hdone, if_neg hmem] at hrun
          obtain ⟨j, hj, hjd⟩ := ih env rest acc res (by simp at hlen ⊢; omega) hrun
          exact ⟨j, List.mem_cons_of_mem i hj, hjd⟩

theorem eksLoop_names (env : AwsEnv) : ∀ (cl : List String)
    (res : List ClusterSummary),
    getEksDataLoop env cl = .ok res → ∀ s ∈ res, s.name ∈ cl := by
  intro cl
  induction cl with
  | nil =>
    intro res hrun s hs
    simp only [getEksDataLoop] at hrun
    injection hrun with h
    subst h
    simp at hs
  | cons c rest ih =>
    intro res hrun s hs
    by_cases hcred : env.credOk c = true
    · simp only [getEksDataLoop, hcred, if_true] at hrun
      cases hrest : getEksDataLoop env rest with
      | error e => rw [hrest] at hrun; simp at hrun
      | ok l =>
        rw [hrest] at hrun
        injection hrun with h
        subst h
        rcases List.mem_cons.mp hs with rfl | hs2
        · exact List.mem_cons_self c rest
        · exact List.mem_cons_of_mem c (ih l hrest s hs2)
    · have hcred2 : env.credOk c = false := by simpa using hcred
      simp [getEksDataLoop, hcred2] at hrun

/-- Claim C8: every ClusterSummary produced by either collector carries
a name returned by the cluster enumerator. In the interactive Azure loop
a candidate is accepted only after passing the membership check against
the enumerated set, and the loop returns successfully only when some
input, stripped and lowered, equals the explicit sentinel; in the AWS
loop every summary name comes from the enumerated list itself. -/
theorem c8_names_from_enumerator :
    (∀ (env : AzureEnv) (inputs : List String) (res : List ClusterSummary),
        getAksData env inputs = .ok res → ∀ s ∈ res, s.name ∈ env.clusters) ∧
    (∀ (env : AzureEnv) (inputs : List String) (res : List ClusterSummary),
        getAksData env inputs = .ok res →
        ∃ i ∈ inputs, pyLower (pyStrip i) = "done") ∧
    (∀ (env : AwsEnv) (res : List ClusterSummary),
        getEksData env = .ok res → ∀ s ∈ res, s.name ∈ env.clustersPages.headD []) := by
  refine ⟨?_, ?_, ?_⟩
  · intro env inputs res hrun
    exact aksLoop_names inputs.length env inputs [] res le_rfl (by simp) hrun
  · intro env inputs res hrun
    exact aksLoop_done inputs.length env inputs [] res le_rfl hrun
  · intro env res hrun
    exact eksLoop_names env _ res hrun

/-- Claim C8, witness at a concrete interactive run and a concrete AWS
run. -/
theorem c8_witness :
    (∀ s ∈ [ClusterSummary.mk "c1" 0 0 0],
        s.name ∈ (["c1", "c2"] : List String)) ∧
    (∃ i ∈ (["c1", "g", "done"] : List String), pyLower (pyStrip i) = "done") ∧
    (∀ s ∈ [ClusterSummary.mk "c2" 0 0 0], s.name ∈ (["c2"] : List String)) :=
  ⟨c8_names_from_enumerator.1
      ⟨["c1", "c2"], fun _ _ => true, fun _ => ⟨[], []⟩⟩
      ["c1", "g", "done"] _ rfl,
   c8_names_from_enumerator.2.1
      ⟨["c1", "c2"], fun _ _ => true, fun _ => ⟨[], []⟩⟩
      ["c1", "g", "done"] _ rfl,
   c8_names_from_enumerator.2.2
      ⟨[["c2"]], fun _ => true, fun _ => ⟨[], []⟩⟩ _ rfl⟩

/-- Claim C9: collecting the same cluster twice with its state unchanged
returns identical node, pod and container counts, even though the first
call mutates the local kubeconfig environment (the second call starts
from the environment the first call produced). -/
theorem c9_collect_idempotent (e : KubeEnv) (c : String) (st : ClusterState) :
    (collectOne e c st).1 ≠ e ∧
    (collectOne (collectOne e c st).1 c st).2 = (collectOne e c st).2 := by
  constructor
  · intro h
    have := congrArg (fun k => k.kubeconfigEntries.length) h
    simp [collectOne, resolveAccess] at this
  · rfl

/-- Claim C10: a first input whose stripped, lowered form is the
sentinel makes get_aks_data return the empty summary list, and the
cluster-data CSV written for an empty list is exactly the header row. -/
theorem c10_sentinel_first (env : AzureEnv) (i : String) (rest : List String)
    (h : pyLower (pyStrip i) = "done") :
    getAksData env (i :: rest) = .ok [] ∧
    writeClusterCsv [] = "Cluster Name,Nodes,Pods,Containers\r\n" := by
  constructor
  · unfold getAksData getAksDataLoop
    rw [h]
    simp
  · rfl

/-- Claim C10, witness: the padded upper-case sentinel terminates at
once and the file holds only the header row. -/
theorem c10_witness :
    pyLower (pyStrip " DONE ") = "done" ∧
    getAksData ⟨["c1"], fun _ _ => true, fun _ => ⟨[], []⟩⟩ [" DONE ", "x"] =
      .ok [] ∧
    writeClusterCsv [] = "Cluster Name,Nodes,Pods,Containers\r\n" := by
  have h := c10_sentinel_first ⟨["c1"], fun _ _ => true, fun _ => ⟨[], []⟩⟩
    " DONE " ["x"] (by decide)
  exact ⟨by decide, h.1, h.2⟩

end Pcs
